import Mathlib

/-!
Formal model of the MA4822 greenhouse-control project: three Mamdani fuzzy
controllers (Decision_Making.py), the per-variable plant update laws
(Process_Data.py), and the discrete-time simulation driver (Main.py).
All numeric computation is embedded over the rationals.
-/

/-! ### Process_Data.py -/

/-- Embedding of `smooth_data` from src/Process_Data.py: trailing moving
average over the window `[max(0, t - w + 1), t]`; the sum of the slice is
divided by `end_index - start_index` exactly as in the source. -/
def smooth_data (current_timestamp : ℕ) (data : List ℚ) (window_size : ℕ) : ℚ :=
  let start_index := current_timestamp + 1 - window_size
  let end_index := current_timestamp + 1
  ((data.drop start_index).take (end_index - start_index)).sum /
    ((end_index - start_index : ℕ) : ℚ)

/-- Embedding of `update_temperature` from src/Process_Data.py.  The two
series arguments are the base-temperature and modified-temperature arrays,
read at indices `time_stamp` and `time_stamp - 1` respectively. -/
def update_temperature (time_stamp : ℕ) (temp_base modified_temp : ℕ → ℚ)
    (action_level_heater min_limit max_limit decay_rate action_factor : ℚ) : ℚ :=
  let current_temp_base := temp_base time_stamp
  let previous_modified_temp := modified_temp (time_stamp - 1)
  let intensity := action_level_heater / 10
  if 0 < intensity then
    previous_modified_temp + (max_limit - previous_modified_temp) * intensity * action_factor
  else if intensity < 0 then
    previous_modified_temp - (previous_modified_temp - min_limit) * |intensity| * action_factor
  else
    if current_temp_base < previous_modified_temp then
      max current_temp_base (previous_modified_temp - decay_rate)
    else
      min current_temp_base (previous_modified_temp + decay_rate)

/-- Embedding of `update_humidity` from src/Process_Data.py. -/
def update_humidity (time_stamp : ℕ) (humidity_base modified_humidity : ℕ → ℚ)
    (action_level_dehumidifier action_level_ventilation min_limit decay_rate action_factor : ℚ) : ℚ :=
  let current_humidity_base := humidity_base time_stamp
  let previous_modified_humidity := modified_humidity (time_stamp - 1)
  let intensity := (action_level_dehumidifier + action_level_ventilation) / 10
  if 0 < intensity then
    previous_modified_humidity - (previous_modified_humidity - min_limit) * intensity * action_factor
  else
    previous_modified_humidity + (current_humidity_base - previous_modified_humidity) * decay_rate

/-- Embedding of `update_moisture` from src/Process_Data.py. -/
def update_moisture (time_stamp : ℕ) (moisture_base modified_moisture : ℕ → ℚ)
    (action_level_ventilation min_limit decay_rate action_factor : ℚ) : ℚ :=
  let current_moisture_base := moisture_base time_stamp
  let previous_modified_moisture := modified_moisture (time_stamp - 1)
  let intensity := action_level_ventilation / 10
  if 0 < intensity then
    previous_modified_moisture - (previous_modified_moisture - min_limit) * intensity * action_factor
  else
    previous_modified_moisture + (current_moisture_base - previous_modified_moisture) * decay_rate

/-! ### The fuzzy inference engine

The controllers in src/Decision_Making.py configure and invoke the external
`skfuzzy.control` library; only the configurations (membership breakpoints,
rules, input wiring) are in the repository.  The engine itself is therefore
modelled from the spec. -/

/-- Modelled from the spec: the triangular membership function `fuzz.trimf`
(the evaluator lives in the external skfuzzy library, not under src/).
Spec 4.1: linear ramp-up on `[a,b]`, linear ramp-down on `[b,c]`, zero
outside `[a,c]`; degenerate breakpoints (`a = b` or `b = c`) collapse to a
one-sided ramp without division error (the guarded branches never evaluate
`0 / 0`). -/
def trimf (a b c x : ℚ) : ℚ :=
  if x < a ∨ c < x then 0
  else if x < b then (x - a) / (b - a)
  else if x = b then 1
  else (c - x) / (c - b)

/-- A triangular membership function, given by its three breakpoints. -/
structure MF where
  a : ℚ
  b : ℚ
  c : ℚ
deriving DecidableEq

/-- Degree of membership of `x` in the fuzzy set `f`. -/
def MF.degree (f : MF) (x : ℚ) : ℚ := trimf f.a f.b f.c x

/-- The breakpoints are in the configured order `a ≤ b ≤ c`. -/
def MF.ordered (f : MF) : Prop := f.a ≤ f.b ∧ f.b ≤ f.c

instance : DecidablePred MF.ordered := fun _ => instDecidableAnd

/-- A fuzzy rule: antecedent clauses `(input index, fuzzy set)` combined by
fuzzy AND, and one consequent fuzzy set on the output variable. -/
structure FRule where
  ants : List (ℕ × MF)
  cons : MF
deriving DecidableEq

/-- The membership degrees of a rule's antecedent clauses at the given
input readings. -/
def antecedentDegrees (inputs : List ℚ) (r : FRule) : List ℚ :=
  r.ants.map fun p => p.2.degree (inputs.getD p.1 0)

/-- Modelled from the spec: rule firing strength, the fuzzy AND (minimum)
of the antecedent membership degrees. -/
def firing (inputs : List ℚ) (r : FRule) : ℚ :=
  (antecedentDegrees inputs r).foldr min 1

/-- The discretized output universe `np.arange(-10, 11, 1)` shared by all
three controllers in src/Decision_Making.py. -/
def outGrid : List ℚ := (List.range 21).map fun i => (i : ℚ) - 10

/-- Modelled from the spec: aggregated output membership at grid point `x`,
the maximum over all rules of the firing strength clipped consequent. -/
def aggregated (rules : List FRule) (inputs : List ℚ) (x : ℚ) : ℚ :=
  (rules.map fun r => min (firing inputs r) (r.cons.degree x)).foldr max 0

/-- Numerator of the centroid defuzzification sum. -/
def centroidNum (rules : List FRule) (inputs : List ℚ) : ℚ :=
  (outGrid.map fun x => x * aggregated rules inputs x).sum

/-- Denominator of the centroid defuzzification sum. -/
def centroidDen (rules : List FRule) (inputs : List ℚ) : ℚ :=
  (outGrid.map fun x => aggregated rules inputs x).sum

/-- Modelled from the spec: full Mamdani evaluation — aggregation followed
by centroid defuzzification; a zero denominator (no rule fired above zero
at any grid point) yields the explicit no-consensus outcome `none`. -/
def mamdani (rules : List FRule) (inputs : List ℚ) : Option ℚ :=
  if centroidDen rules inputs = 0 then none
  else some (centroidNum rules inputs / centroidDen rules inputs)

/-! ### Controller configurations (src/Decision_Making.py) -/

/-- `humidity['low']` of `dehumidifier_controller` (line 22). -/
def dehum_humidity_low : MF := ⟨0, 0, 50⟩
/-- `humidity['medium']` of `dehumidifier_controller` (line 23). -/
def dehum_humidity_medium : MF := ⟨45, 60, 75⟩
/-- `humidity['high']` of `dehumidifier_controller` (line 24). -/
def dehum_humidity_high : MF := ⟨70, 100, 100⟩
/-- `dehumidifier['off']` (line 27). -/
def dehum_off : MF := ⟨-10, -10, 1⟩
/-- `dehumidifier['low']` (line 28). -/
def dehum_low : MF := ⟨0, 3/2, 3⟩
/-- `dehumidifier['high']` (line 29). -/
def dehum_high : MF := ⟨2, 10, 10⟩

/-- The three rules of `dehumidifier_controller` (lines 32-34). -/
def dehum_rules : List FRule :=
  [⟨[(0, dehum_humidity_high)], dehum_high⟩,
   ⟨[(0, dehum_humidity_medium)], dehum_low⟩,
   ⟨[(0, dehum_humidity_low)], dehum_off⟩]

/-- Embedding of `dehumidifier_controller`: the single input is
`sensdata[1]` (line 40). -/
def dehumidifier_controller (sensdata : ℚ × ℚ × ℚ) : Option ℚ :=
  mamdani dehum_rules [sensdata.2.1]

/-- `humidity['low']` of `ventilation_controller` (line 67). -/
def vent_humidity_low : MF := ⟨0, 0, 60⟩
/-- `humidity['medium']` of `ventilation_controller` (line 68). -/
def vent_humidity_medium : MF := ⟨55, 65, 75⟩
/-- `humidity['high']` of `ventilation_controller` (line 69). -/
def vent_humidity_high : MF := ⟨70, 100, 100⟩
/-- `moisture['low']` (line 72). -/
def vent_moisture_low : MF := ⟨0, 0, 15⟩
/-- `moisture['medium']` (line 73). -/
def vent_moisture_medium : MF := ⟨10, 15, 20⟩
/-- `moisture['high']` (line 74). -/
def vent_moisture_high : MF := ⟨15, 100, 100⟩
/-- `ventilation['off']` (line 77). -/
def vent_off : MF := ⟨-10, -10, 1⟩
/-- `ventilation['low']` (line 78). -/
def vent_low : MF := ⟨0, 3/2, 3⟩
/-- `ventilation['high']` (line 79). -/
def vent_high : MF := ⟨2, 10, 10⟩

/-- The nine rules of `ventilation_controller` (lines 82-90), in the order
they are handed to `ControlSystem` (line 93); input 0 is humidity and
input 1 is moisture. -/
def vent_rules : List FRule :=
  [⟨[(0, vent_humidity_high), (1, vent_moisture_high)], vent_high⟩,
   ⟨[(0, vent_humidity_high), (1, vent_moisture_medium)], vent_high⟩,
   ⟨[(0, vent_humidity_high), (1, vent_moisture_low)], vent_high⟩,
   ⟨[(0, vent_humidity_medium), (1, vent_moisture_high)], vent_high⟩,
   ⟨[(0, vent_humidity_medium), (1, vent_moisture_medium)], vent_low⟩,
   ⟨[(0, vent_humidity_low), (1, vent_moisture_high)], vent_high⟩,
   ⟨[(0, vent_humidity_medium), (1, vent_moisture_low)], vent_low⟩,
   ⟨[(0, vent_humidity_low), (1, vent_moisture_medium)], vent_low⟩,
   ⟨[(0, vent_humidity_low), (1, vent_moisture_low)], vent_off⟩]

/-- Embedding of `ventilation_controller`: inputs are `sensdata[1]`
(humidity) and `sensdata[2]` (moisture) (lines 96-97). -/
def ventilation_controller (sensdata : ℚ × ℚ × ℚ) : Option ℚ :=
  mamdani vent_rules [sensdata.2.1, sensdata.2.2]

/-- `temperature['cold']` of `heating_controller` (line 122). -/
def heat_temperature_cold : MF := ⟨0, 0, 19⟩
/-- `temperature['medium']` (line 123). -/
def heat_temperature_medium : MF := ⟨18, 20, 22⟩
/-- `temperature['hot']` (line 124). -/
def heat_temperature_hot : MF := ⟨21, 30, 30⟩
/-- `heating['cool']` (line 127). -/
def heat_cool : MF := ⟨-10, -10, 0⟩
/-- `heating['off']` (line 128). -/
def heat_off : MF := ⟨-5, 0, 5⟩
/-- `heating['on']` (line 129). -/
def heat_on : MF := ⟨0, 10, 10⟩

/-- The three rules of `heating_controller` (lines 132-134). -/
def heat_rules : List FRule :=
  [⟨[(0, heat_temperature_hot)], heat_cool⟩,
   ⟨[(0, heat_temperature_medium)], heat_off⟩,
   ⟨[(0, heat_temperature_cold)], heat_on⟩]

/-- Embedding of `heating_controller`: the single input is `sensdata[0]`
(line 140). -/
def heating_controller (sensdata : ℚ × ℚ × ℚ) : Option ℚ :=
  mamdani heat_rules [sensdata.1]

/-! ### Reference Mamdani definition (the claim's wording)

These definitions follow the spec's sentences verbatim, to be compared
with the engine above: the firing strength is *the minimum* of the
antecedent degrees (the degree itself for a single clause), the aggregated
degree is *the maximum* over all rules, and the action is the centroid
ratio over the discretized grid. -/

/-- The minimum of a list of degrees; a singleton is the degree itself. -/
def listMin : List ℚ → ℚ
  | [] => 1
  | [d] => d
  | d :: ds => min d (listMin ds)

/-- The maximum of a list of degrees. -/
def listMax : List ℚ → ℚ
  | [] => 0
  | [d] => d
  | d :: ds => max d (listMax ds)

/-- Reference firing strength: the minimum of the membership degrees of the
rule's antecedent clauses. -/
def refFiring (inputs : List ℚ) (r : FRule) : ℚ :=
  listMin (antecedentDegrees inputs r)

/-- Reference aggregated degree at `x`: the maximum over all rules of
`min(firing_strength(rule), consequent_mf(rule)(x))`. -/
def refAggregated (rules : List FRule) (inputs : List ℚ) (x : ℚ) : ℚ :=
  listMax (rules.map fun r => min (refFiring inputs r) (r.cons.degree x))

/-- Reference centroid: `Σ(x · aggregated_degree(x)) / Σ(aggregated_degree(x))`
over the discretized output grid. -/
def refCentroid (rules : List FRule) (inputs : List ℚ) : ℚ :=
  (outGrid.map fun x => x * refAggregated rules inputs x).sum /
    (outGrid.map fun x => refAggregated rules inputs x).sum

/-! ### Simulation driver (src/Main.py) -/

/-- `temperature_min_limit` (Main.py line 18). -/
def temperature_min_limit : ℚ := 5
/-- `temperature_max_limit` (line 19). -/
def temperature_max_limit : ℚ := 25
/-- `temperature_decay_rate` (line 20). -/
def temperature_decay_rate : ℚ := 1/20
/-- `temperature_action_factor` (line 21). -/
def temperature_action_factor : ℚ := 1/20
/-- `humidity_min_limit` (line 31). -/
def humidity_min_limit : ℚ := 0
/-- `humidity_decay_rate` (line 32). -/
def humidity_decay_rate : ℚ := 1/20
/-- `humidity_action_factor` (line 33). -/
def humidity_action_factor : ℚ := 3/100
/-- `moisture_min_limit` (line 40). -/
def moisture_min_limit : ℚ := 0
/-- `moisture_decay_rate` (line 41). -/
def moisture_decay_rate : ℚ := 1/20
/-- `moisture_action_factor` (line 42). -/
def moisture_action_factor : ℚ := 1/20

/-- The externally generated series consumed by `main`: per-variable base
signals and noise samples, indexed by timestep. -/
structure SimParams where
  tempBase : ℕ → ℚ
  humBase : ℕ → ℚ
  moistBase : ℕ → ℚ
  tempNoise : ℕ → ℚ
  humNoise : ℕ → ℚ
  moistNoise : ℕ → ℚ

/-- The driver's recorded series after processing timestep `t`, stored with
the most recent entry first (`tempUpd.headD 0` is `temperature_updated[t]`). -/
structure SimState where
  tempUpd : List ℚ
  humUpd : List ℚ
  moistUpd : List ℚ
  dehumAct : List ℚ
  ventAct : List ℚ
  heatAct : List ℚ
deriving DecidableEq

/-- Forward-indexed view of a reversed series list: `seriesAt l j` is the
entry recorded at timestep `j`. -/
def seriesAt (l : List ℚ) (j : ℕ) : ℚ := l.reverse.getD j 0

/-- The plant-model update of Main.py lines 82-91: each updated series gets
its value at `t`, computed from the series so far and the actions at `t-1`. -/
def plantStep (p : SimParams) (t : ℕ) (s : SimState) : SimState :=
  { s with
    tempUpd := update_temperature t p.tempBase (seriesAt s.tempUpd) (s.heatAct.headD 0)
        temperature_min_limit temperature_max_limit temperature_decay_rate
        temperature_action_factor :: s.tempUpd,
    humUpd := update_humidity t p.humBase (seriesAt s.humUpd) (s.dehumAct.headD 0)
        (s.ventAct.headD 0) humidity_min_limit humidity_decay_rate
        humidity_action_factor :: s.humUpd,
    moistUpd := update_moisture t p.moistBase (seriesAt s.moistUpd) (s.ventAct.headD 0)
        moisture_min_limit moisture_decay_rate moisture_action_factor :: s.moistUpd }

/-- The `if time_stamp > 0` guard of Main.py line 80: the plant model runs
only for `t > 0`. -/
def stepState (p : SimParams) (t : ℕ) (s : SimState) : SimState :=
  if 0 < t then plantStep p t s else s

/-- The noisy readings `updated + noise` (Main.py lines 94-96), restricted
to the indices `0..t` that the smoothing window can reach. -/
def noisySeries (upd : List ℚ) (noise : ℕ → ℚ) (t : ℕ) : List ℚ :=
  (List.range (t + 1)).map fun j => seriesAt upd j + noise j

/-- The smoothed sensor-data triple `[temperature, humidity, moisture]`
(Main.py lines 99-104). -/
def stepSens (p : SimParams) (t : ℕ) (s : SimState) : ℚ × ℚ × ℚ :=
  (smooth_data t (noisySeries s.tempUpd p.tempNoise t) 5,
   smooth_data t (noisySeries s.humUpd p.humNoise t) 5,
   smooth_data t (noisySeries s.moistUpd p.moistNoise t) 5)

/-- The action-recording step (Main.py lines 108-110): the three controller
outputs for the current readings; if any controller reaches no consensus
there is no action value to record. -/
def recordActions (sens : ℚ × ℚ × ℚ) : Option (ℚ × ℚ × ℚ) :=
  match dehumidifier_controller sens, ventilation_controller sens,
      heating_controller sens with
  | some d, some v, some h => some (d, v, h)
  | _, _, _ => none

/-- Append freshly recorded actions to the action series. -/
def pushActs (s : SimState) (a : ℚ × ℚ × ℚ) : SimState :=
  { s with dehumAct := a.1 :: s.dehumAct, ventAct := a.2.1 :: s.ventAct,
           heatAct := a.2.2 :: s.heatAct }

/-- One iteration of the loop of Main.py lines 77-115 at timestep `t`. -/
def runStep (p : SimParams) (t : ℕ) (s : SimState) : Option SimState :=
  (recordActions (stepSens p t (stepState p t s))).map (pushActs (stepState p t s))

/-- The state before the loop body at `t = 0`: each updated series is a
copy of the base series (Main.py lines 67-69), of which only index 0 is
ever read before being overwritten. -/
def initState (p : SimParams) : SimState :=
  ⟨[p.tempBase 0], [p.humBase 0], [p.moistBase 0], [], [], []⟩

/-- The driver loop of Main.py `main`, as the recorded series after
timestep `t`. -/
def run (p : SimParams) : ℕ → Option SimState
  | 0 => runStep p 0 (initState p)
  | t + 1 => (run p t).bind (runStep p (t + 1))

/-- `temperature_updated[t]`, read off the run (0 if the run failed). -/
def tempAt (o : Option SimState) : ℚ :=
  match o with
  | some s => s.tempUpd.headD 0
  | none => 0

/-- `humidity_updated[t]`, read off the run. -/
def humAt (o : Option SimState) : ℚ :=
  match o with
  | some s => s.humUpd.headD 0
  | none => 0

/-- `moisture_updated[t]`, read off the run. -/
def moistAt (o : Option SimState) : ℚ :=
  match o with
  | some s => s.moistUpd.headD 0
  | none => 0

/-- `dehumidifier_action[t]`, read off the run. -/
def dehumActAt (o : Option SimState) : ℚ :=
  match o with
  | some s => s.dehumAct.headD 0
  | none => 0

/-- `ventilation_action[t]`, read off the run. -/
def ventActAt (o : Option SimState) : ℚ :=
  match o with
  | some s => s.ventAct.headD 0
  | none => 0

/-- `heating_action[t]`, read off the run. -/
def heatActAt (o : Option SimState) : ℚ :=
  match o with
  | some s => s.heatAct.headD 0
  | none => 0

/-- The temperature update law as a function of exactly the previous
updated value, the base value at `t`, and the heating action at `t-1`. -/
def tempLaw (prev b act : ℚ) : ℚ :=
  if 0 < act / 10 then
    prev + (temperature_max_limit - prev) * (act / 10) * temperature_action_factor
  else if act / 10 < 0 then
    prev - (prev - temperature_min_limit) * |act / 10| * temperature_action_factor
  else
    if b < prev then max b (prev - temperature_decay_rate)
    else min b (prev + temperature_decay_rate)

/-- The humidity update law as a function of exactly the previous updated
value, the base value at `t`, and the two actions at `t-1`. -/
def humLaw (prev b d v : ℚ) : ℚ :=
  if 0 < (d + v) / 10 then
    prev - (prev - humidity_min_limit) * ((d + v) / 10) * humidity_action_factor
  else
    prev + (b - prev) * humidity_decay_rate

/-- The moisture update law as a function of exactly the previous updated
value, the base value at `t`, and the ventilation action at `t-1`. -/
def moistLaw (prev b v : ℚ) : ℚ :=
  if 0 < v / 10 then
    prev - (prev - moisture_min_limit) * (v / 10) * moisture_action_factor
  else
    prev + (b - prev) * moisture_decay_rate

/-! ### End-of-run analysis (src/Main.py lines 131-148) -/

/-- The boolean-mask selection `time[(values <= hi) & (values >= lo)]`
used for the rise-time analysis. -/
def rise_band (time values : List ℚ) (lo hi : ℚ) : List ℚ :=
  ((time.zip values).filter fun q => decide (q.2 ≤ hi) && decide (lo ≤ q.2)).map Prod.fst

/-- `rise_temperature` (Main.py line 132): times at which the updated
temperature lies in the comfort band `[18, 22]`. -/
def rise_temperature (time temp : List ℚ) : List ℚ := rise_band time temp 18 22

/-- `rise_humidity` (Main.py line 133): comfort band `[40, 60]`. -/
def rise_humidity (time hum : List ℚ) : List ℚ := rise_band time hum 40 60

/-- `rise_moisture` (Main.py line 134): one-sided band `values <= 20`. -/
def rise_moisture (time moist : List ℚ) : List ℚ :=
  ((time.zip moist).filter fun q => decide (q.2 ≤ 20)).map Prod.fst

/-! ### List helper lemmas -/

lemma list_sum_pos_of_mem (l : List ℚ) (a : ℚ) (ha : a ∈ l) (hp : 0 < a)
    (hnn : ∀ b ∈ l, 0 ≤ b) : 0 < l.sum := by
  induction l with
  | nil => cases ha
  | cons b bs ih =>
    rw [List.sum_cons]
    rcases List.mem_cons.1 ha with rfl | hmem
    · exact add_pos_of_pos_of_nonneg hp
        (List.sum_nonneg fun x hx => hnn x (List.mem_cons_of_mem _ hx))
    · exact add_pos_of_nonneg_of_pos (hnn b (List.mem_cons_self _ _))
        (ih hmem fun x hx => hnn x (List.mem_cons_of_mem _ hx))

lemma zero_le_foldr_max (l : List ℚ) : 0 ≤ l.foldr max 0 := by
  induction l with
  | nil => exact le_refl 0
  | cons a l ih => exact ih.trans (le_max_right a _)

lemma le_foldr_max (l : List ℚ) (a : ℚ) (ha : a ∈ l) : a ≤ l.foldr max 0 := by
  induction l with
  | nil => cases ha
  | cons b bs ih =>
    rcases List.mem_cons.1 ha with rfl | h
    · exact le_max_left _ _
    · exact ((ih h).trans (le_max_right _ _))

lemma foldr_min_pos (l : List ℚ) (h : ∀ d ∈ l, 0 < d) : 0 < l.foldr min 1 := by
  induction l with
  | nil => norm_num
  | cons a l ih =>
    exact lt_min (h a (List.mem_cons_self _ _))
      (ih fun d hd => h d (List.mem_cons_of_mem _ hd))

lemma foldr_min_nonneg (l : List ℚ) (h : ∀ d ∈ l, 0 ≤ d) : 0 ≤ l.foldr min 1 := by
  induction l with
  | nil => norm_num
  | cons a l ih =>
    exact le_min (h a (List.mem_cons_self _ _))
      (ih fun d hd => h d (List.mem_cons_of_mem _ hd))

lemma listMin_nonneg (l : List ℚ) (h : ∀ d ∈ l, 0 ≤ d) : 0 ≤ listMin l := by
  induction l with
  | nil => norm_num [listMin]
  | cons a l ih =>
    cases l with
    | nil => simpa [listMin] using h a (List.mem_cons_self _ _)
    | cons b bs =>
      simp only [listMin]
      exact le_min (h a (List.mem_cons_self _ _))
        (ih fun d hd => h d (List.mem_cons_of_mem _ hd))

lemma foldr_min_eq_listMin (l : List ℚ) (hne : l ≠ []) (h : ∀ d ∈ l, d ≤ 1) :
    l.foldr min 1 = listMin l := by
  induction l with
  | nil => exact absurd rfl hne
  | cons a l ih =>
    cases l with
    | nil =>
      simp only [List.foldr, listMin]
      exact min_eq_left (h a (List.mem_cons_self _ _))
    | cons b bs =>
      simp only [List.foldr, listMin] at ih ⊢
      rw [← ih (by simp) fun d hd => h d (List.mem_cons_of_mem _ hd)]

lemma foldr_max_eq_listMax (l : List ℚ) (h : ∀ d ∈ l, 0 ≤ d) :
    l.foldr max 0 = listMax l := by
  induction l with
  | nil => simp [listMax]
  | cons a l ih =>
    cases l with
    | nil =>
      simp only [List.foldr, listMax]
      exact max_eq_left (h a (List.mem_cons_self _ _))
    | cons b bs =>
      simp only [List.foldr, listMax] at ih ⊢
      rw [← ih fun d hd => h d (List.mem_cons_of_mem _ hd)]

/-! ### Triangular membership function lemmas -/

lemma trimf_nonneg (a b c x : ℚ) (hab : a ≤ b) (hbc : b ≤ c) : 0 ≤ trimf a b c x := by
  unfold trimf
  split_ifs with h1 h2 h3
  · exact le_refl 0
  · push_neg at h1
    exact div_nonneg (by linarith [h1.1]) (by linarith)
  · norm_num
  · push_neg at h1
    exact div_nonneg (by linarith [h1.2]) (by linarith)

lemma trimf_le_one (a b c x : ℚ) (hab : a ≤ b) (hbc : b ≤ c) : trimf a b c x ≤ 1 := by
  unfold trimf
  split_ifs with h1 h2 h3
  · norm_num
  · push_neg at h1
    rw [div_le_one (by linarith [h1.1])]
    linarith [h1.1]
  · exact le_refl 1
  · push_neg at h1 h2
    rw [div_le_one (by linarith [lt_of_le_of_ne h2 (Ne.symm h3)])]
    linarith [h1.2]

lemma trimf_pos_of_mem (a b c x : ℚ) (h1 : a < x) (h2 : x < c) : 0 < trimf a b c x := by
  unfold trimf
  split_ifs with g1 g2 g3
  · rcases g1 with g | g <;> linarith
  · exact div_pos (by linarith) (by linarith)
  · norm_num
  · push_neg at g2
    exact div_pos (by linarith) (by linarith [lt_of_le_of_ne g2 (Ne.symm g3)])

lemma trimf_peak (a b c : ℚ) (hab : a ≤ b) (hbc : b ≤ c) : trimf a b c b = 1 := by
  unfold trimf
  split_ifs with g1 g2 g3
  · rcases g1 with g | g <;> linarith
  · linarith
  · rfl
  · exact absurd rfl g3

lemma trimf_left_end (a b c : ℚ) (hab : a < b) : trimf a b c a = 0 := by
  unfold trimf
  split_ifs with g1
  · rfl
  · simp

lemma trimf_right_end (a b c : ℚ) (hab : a ≤ b) (hbc : b < c) : trimf a b c c = 0 := by
  unfold trimf
  split_ifs with g1 g2 g3
  · rfl
  · linarith
  · linarith
  · simp

lemma trimf_eq_ramp_up (a b c z : ℚ) (haz : a ≤ z) (hzb : z < b) (hbc : b ≤ c) :
    trimf a b c z = (z - a) / (b - a) := by
  unfold trimf
  rw [if_neg (not_or.2 ⟨not_lt.2 haz, not_lt.2 (by linarith)⟩), if_pos hzb]

lemma trimf_eq_ramp_down (a b c z : ℚ) (hab : a ≤ b) (hbz : b < z) (hzc : z ≤ c) :
    trimf a b c z = (c - z) / (c - b) := by
  unfold trimf
  rw [if_neg (not_or.2 ⟨not_lt.2 (by linarith), not_lt.2 hzc⟩),
    if_neg (not_lt.2 (le_of_lt hbz)), if_neg (ne_of_gt hbz)]

lemma trimf_mono_up (a b c x y : ℚ) (hbc : b ≤ c) (hax : a ≤ x) (hxy : x ≤ y)
    (hyb : y ≤ b) : trimf a b c x ≤ trimf a b c y := by
  rcases eq_or_lt_of_le hyb with rfl | hylt
  · rw [trimf_peak a y c (by linarith) hbc]
    exact trimf_le_one a y c x (by linarith) hbc
  · rw [trimf_eq_ramp_up a b c x hax (by linarith) hbc,
      trimf_eq_ramp_up a b c y (by linarith) hylt hbc]
    exact div_le_div_of_nonneg_right (by linarith) (by linarith)

lemma trimf_mono_down (a b c x y : ℚ) (hab : a ≤ b) (hbx : b ≤ x) (hxy : x ≤ y)
    (hyc : y ≤ c) : trimf a b c y ≤ trimf a b c x := by
  rcases eq_or_lt_of_le hbx with rfl | hxlt
  · rw [trimf_peak a b c hab (by linarith)]
    exact trimf_le_one a b c y hab (by linarith)
  · rw [trimf_eq_ramp_down a b c x hab hxlt (by linarith),
      trimf_eq_ramp_down a b c y hab (by linarith) hyc]
    exact div_le_div_of_nonneg_right (by linarith) (by linarith)

lemma trimf_pos_left_shoulder (a c x : ℚ) (hax : a ≤ x) (hxc : x < c) :
    0 < trimf a a c x := by
  rcases eq_or_lt_of_le hax with rfl | hlt
  · rw [trimf_peak] <;> linarith
  · exact trimf_pos_of_mem a a c x hlt hxc

lemma trimf_pos_right_shoulder (a c x : ℚ) (hax : a < x) (hxc : x ≤ c) :
    0 < trimf a c c x := by
  rcases eq_or_lt_of_le hxc with rfl | hlt
  · rw [trimf_peak] <;> linarith
  · exact trimf_pos_of_mem a c c x hax hlt

/-! ### Denominator positivity for in-universe readings -/

lemma centroidDen_pos_of (rules : List FRule) (inputs : List ℚ) (r : FRule) (x : ℚ)
    (hr : r ∈ rules) (hx : x ∈ outGrid) (hf : 0 < firing inputs r)
    (hc : 0 < r.cons.degree x) : 0 < centroidDen rules inputs := by
  have hagg : 0 < aggregated rules inputs x :=
    lt_of_lt_of_le (lt_min hf hc) (le_foldr_max _ _ (List.mem_map_of_mem _ hr))
  refine list_sum_pos_of_mem _ (aggregated rules inputs x) (List.mem_map_of_mem _ hx) hagg ?_
  intro b hb
  rcases List.mem_map.1 hb with ⟨y, _, rfl⟩
  exact zero_le_foldr_max _

lemma mem_outGrid_neg10 : (-10 : ℚ) ∈ outGrid := by
  norm_num [outGrid, List.range_succ]

lemma mem_outGrid_zero : (0 : ℚ) ∈ outGrid := by
  norm_num [outGrid, List.range_succ]

lemma mem_outGrid_one : (1 : ℚ) ∈ outGrid := by
  norm_num [outGrid, List.range_succ]

lemma mem_outGrid_ten : (10 : ℚ) ∈ outGrid := by
  norm_num [outGrid, List.range_succ]

lemma dehum_off_pos : 0 < MF.degree dehum_off (-10) := by
  show 0 < trimf (-10) (-10) 1 (-10)
  rw [trimf_peak] <;> norm_num

lemma dehum_low_pos : 0 < MF.degree dehum_low 1 := by
  show 0 < trimf 0 (3/2) 3 1
  exact trimf_pos_of_mem _ _ _ _ (by norm_num) (by norm_num)

lemma dehum_high_pos : 0 < MF.degree dehum_high 10 := by
  show 0 < trimf 2 10 10 10
  rw [trimf_peak] <;> norm_num

lemma vent_off_pos : 0 < MF.degree vent_off (-10) := by
  show 0 < trimf (-10) (-10) 1 (-10)
  rw [trimf_peak] <;> norm_num

lemma vent_low_pos : 0 < MF.degree vent_low 1 := by
  show 0 < trimf 0 (3/2) 3 1
  exact trimf_pos_of_mem _ _ _ _ (by norm_num) (by norm_num)

lemma vent_high_pos : 0 < MF.degree vent_high 10 := by
  show 0 < trimf 2 10 10 10
  rw [trimf_peak] <;> norm_num

lemma heat_cool_pos : 0 < MF.degree heat_cool (-10) := by
  show 0 < trimf (-10) (-10) 0 (-10)
  rw [trimf_peak] <;> norm_num

lemma heat_off_pos : 0 < MF.degree heat_off 0 := by
  show 0 < trimf (-5) 0 5 0
  rw [trimf_peak] <;> norm_num

lemma heat_on_pos : 0 < MF.degree heat_on 10 := by
  show 0 < trimf 0 10 10 10
  rw [trimf_peak] <;> norm_num

lemma dehum_den_pos (h : ℚ) (h0 : 0 ≤ h) (h1 : h ≤ 100) :
    0 < centroidDen dehum_rules [h] := by
  rcases lt_or_le h 50 with hc | hc
  · have hdeg : 0 < MF.degree dehum_humidity_low h := by
      show 0 < trimf 0 0 50 h
      exact trimf_pos_left_shoulder 0 50 h h0 hc
    exact centroidDen_pos_of dehum_rules [h] _ (-10)
      (List.mem_cons_of_mem _ (List.mem_cons_of_mem _ (List.mem_cons_self _ _)))
      mem_outGrid_neg10
      (lt_min hdeg one_pos) dehum_off_pos
  · rcases lt_or_le h 75 with hc2 | hc2
    · have hdeg : 0 < MF.degree dehum_humidity_medium h := by
        show 0 < trimf 45 60 75 h
        exact trimf_pos_of_mem 45 60 75 h (by linarith) hc2
      exact centroidDen_pos_of dehum_rules [h] _ 1
        (List.mem_cons_of_mem _ (List.mem_cons_self _ _))
        mem_outGrid_one
        (lt_min hdeg one_pos) dehum_low_pos
    · have hdeg : 0 < MF.degree dehum_humidity_high h := by
        show 0 < trimf 70 100 100 h
        exact trimf_pos_right_shoulder 70 100 h (by linarith) h1
      exact centroidDen_pos_of dehum_rules [h] _ 10
        (List.mem_cons_self _ _)
        mem_outGrid_ten
        (lt_min hdeg one_pos) dehum_high_pos

lemma heat_den_pos (T : ℚ) (h0 : 0 ≤ T) (h1 : T ≤ 30) :
    0 < centroidDen heat_rules [T] := by
  rcases lt_or_le T 19 with hc | hc
  · have hdeg : 0 < MF.degree heat_temperature_cold T := by
      show 0 < trimf 0 0 19 T
      exact trimf_pos_left_shoulder 0 19 T h0 hc
    exact centroidDen_pos_of heat_rules [T] _ 10
      (List.mem_cons_of_mem _ (List.mem_cons_of_mem _ (List.mem_cons_self _ _)))
      mem_outGrid_ten
      (lt_min hdeg one_pos) heat_on_pos
  · rcases lt_or_le T 22 with hc2 | hc2
    · have hdeg : 0 < MF.degree heat_temperature_medium T := by
        show 0 < trimf 18 20 22 T
        exact trimf_pos_of_mem 18 20 22 T (by linarith) hc2
      exact centroidDen_pos_of heat_rules [T] _ 0
        (List.mem_cons_of_mem _ (List.mem_cons_self _ _))
        mem_outGrid_zero
        (lt_min hdeg one_pos) heat_off_pos
    · have hdeg : 0 < MF.degree heat_temperature_hot T := by
        show 0 < trimf 21 30 30 T
        exact trimf_pos_right_shoulder 21 30 T (by linarith) h1
      exact centroidDen_pos_of heat_rules [T] _ (-10)
        (List.mem_cons_self _ _)
        mem_outGrid_neg10
        (lt_min hdeg one_pos) heat_cool_pos

lemma vent_hum_low_deg (h : ℚ) (h0 : 0 ≤ h) (hc : h < 60) :
    0 < MF.degree vent_humidity_low h := by
  show 0 < trimf 0 0 60 h
  exact trimf_pos_left_shoulder 0 60 h h0 hc

lemma vent_hum_medium_deg (h : ℚ) (h0 : 60 ≤ h) (hc : h < 75) :
    0 < MF.degree vent_humidity_medium h := by
  show 0 < trimf 55 65 75 h
  exact trimf_pos_of_mem 55 65 75 h (by linarith) hc

lemma vent_hum_high_deg (h : ℚ) (h0 : 75 ≤ h) (hc : h ≤ 100) :
    0 < MF.degree vent_humidity_high h := by
  show 0 < trimf 70 100 100 h
  exact trimf_pos_right_shoulder 70 100 h (by linarith) hc

lemma vent_moist_low_deg (m : ℚ) (m0 : 0 ≤ m) (mc : m < 15) :
    0 < MF.degree vent_moisture_low m := by
  show 0 < trimf 0 0 15 m
  exact trimf_pos_left_shoulder 0 15 m m0 mc

lemma vent_moist_medium_deg (m : ℚ) (m0 : 15 ≤ m) (mc : m < 20) :
    0 < MF.degree vent_moisture_medium m := by
  show 0 < trimf 10 15 20 m
  exact trimf_pos_of_mem 10 15 20 m (by linarith) mc

lemma vent_moist_high_deg (m : ℚ) (m0 : 20 ≤ m) (mc : m ≤ 100) :
    0 < MF.degree vent_moisture_high m := by
  show 0 < trimf 15 100 100 m
  exact trimf_pos_right_shoulder 15 100 m (by linarith) mc

lemma vent_rule_mem_1 :
    (⟨[(0, vent_humidity_high), (1, vent_moisture_high)], vent_high⟩ : FRule) ∈ vent_rules := by
  simp [vent_rules]

lemma vent_rule_mem_2 :
    (⟨[(0, vent_humidity_high), (1, vent_moisture_medium)], vent_high⟩ : FRule) ∈ vent_rules := by
  simp [vent_rules]

lemma vent_rule_mem_3 :
    (⟨[(0, vent_humidity_high), (1, vent_moisture_low)], vent_high⟩ : FRule) ∈ vent_rules := by
  simp [vent_rules]

lemma vent_rule_mem_4 :
    (⟨[(0, vent_humidity_medium), (1, vent_moisture_high)], vent_high⟩ : FRule) ∈ vent_rules := by
  simp [vent_rules]

lemma vent_rule_mem_5 :
    (⟨[(0, vent_humidity_medium), (1, vent_moisture_medium)], vent_low⟩ : FRule) ∈ vent_rules := by
  simp [vent_rules]

lemma vent_rule_mem_6 :
    (⟨[(0, vent_humidity_low), (1, vent_moisture_high)], vent_high⟩ : FRule) ∈ vent_rules := by
  simp [vent_rules]

lemma vent_rule_mem_7 :
    (⟨[(0, vent_humidity_low), (1, vent_moisture_medium)], vent_low⟩ : FRule) ∈ vent_rules := by
  simp [vent_rules]

lemma vent_rule_mem_8 :
    (⟨[(0, vent_humidity_medium), (1, vent_moisture_low)], vent_low⟩ : FRule) ∈ vent_rules := by
  simp [vent_rules]

lemma vent_rule_mem_9 :
    (⟨[(0, vent_humidity_low), (1, vent_moisture_low)], vent_off⟩ : FRule) ∈ vent_rules := by
  simp [vent_rules]

lemma vent_den_pos (h m : ℚ) (h0 : 0 ≤ h) (h1 : h ≤ 100) (m0 : 0 ≤ m) (m1 : m ≤ 100) :
    0 < centroidDen vent_rules [h, m] := by
  rcases lt_or_le h 60 with hh | hh
  · rcases lt_or_le m 15 with hm | hm
    · exact centroidDen_pos_of vent_rules [h, m] _ (-10) vent_rule_mem_9 mem_outGrid_neg10
        (lt_min (vent_hum_low_deg h h0 hh) (lt_min (vent_moist_low_deg m m0 hm) one_pos))
        vent_off_pos
    · rcases lt_or_le m 20 with hm2 | hm2
      · exact centroidDen_pos_of vent_rules [h, m] _ 1 vent_rule_mem_7 mem_outGrid_one
          (lt_min (vent_hum_low_deg h h0 hh) (lt_min (vent_moist_medium_deg m hm hm2) one_pos))
          vent_low_pos
      · exact centroidDen_pos_of vent_rules [h, m] _ 10 vent_rule_mem_6 mem_outGrid_ten
          (lt_min (vent_hum_low_deg h h0 hh) (lt_min (vent_moist_high_deg m hm2 m1) one_pos))
          vent_high_pos
  · rcases lt_or_le h 75 with hh2 | hh2
    · rcases lt_or_le m 15 with hm | hm
      · exact centroidDen_pos_of vent_rules [h, m] _ 1 vent_rule_mem_8 mem_outGrid_one
          (lt_min (vent_hum_medium_deg h hh hh2) (lt_min (vent_moist_low_deg m m0 hm) one_pos))
          vent_low_pos
      · rcases lt_or_le m 20 with hm2 | hm2
        · exact centroidDen_pos_of vent_rules [h, m] _ 1 vent_rule_mem_5 mem_outGrid_one
            (lt_min (vent_hum_medium_deg h hh hh2) (lt_min (vent_moist_medium_deg m hm hm2) one_pos))
            vent_low_pos
        · exact centroidDen_pos_of vent_rules [h, m] _ 10 vent_rule_mem_4 mem_outGrid_ten
            (lt_min (vent_hum_medium_deg h hh hh2) (lt_min (vent_moist_high_deg m hm2 m1) one_pos))
            vent_high_pos
    · rcases lt_or_le m 15 with hm | hm
      · exact centroidDen_pos_of vent_rules [h, m] _ 10 vent_rule_mem_3 mem_outGrid_ten
          (lt_min (vent_hum_high_deg h hh2 h1) (lt_min (vent_moist_low_deg m m0 hm) one_pos))
          vent_high_pos
      · rcases lt_or_le m 20 with hm2 | hm2
        · exact centroidDen_pos_of vent_rules [h, m] _ 10 vent_rule_mem_2 mem_outGrid_ten
            (lt_min (vent_hum_high_deg h hh2 h1) (lt_min (vent_moist_medium_deg m hm hm2) one_pos))
            vent_high_pos
        · exact centroidDen_pos_of vent_rules [h, m] _ 10 vent_rule_mem_1 mem_outGrid_ten
            (lt_min (vent_hum_high_deg h hh2 h1) (lt_min (vent_moist_high_deg m hm2 m1) one_pos))
            vent_high_pos

/-! ### The engine agrees with the reference Mamdani definition -/

lemma firing_eq_refFiring (inputs : List ℚ) (r : FRule) (hne : r.ants ≠ [])
    (hord : ∀ p ∈ r.ants, MF.ordered p.2) : firing inputs r = refFiring inputs r := by
  unfold firing refFiring
  apply foldr_min_eq_listMin
  · simp only [antecedentDegrees, ne_eq, List.map_eq_nil_iff]
    exact hne
  · intro d hd
    rcases List.mem_map.1 hd with ⟨p, hp, rfl⟩
    exact trimf_le_one _ _ _ _ (hord p hp).1 (hord p hp).2

lemma refFiring_nonneg (inputs : List ℚ) (r : FRule)
    (hord : ∀ p ∈ r.ants, MF.ordered p.2) : 0 ≤ refFiring inputs r := by
  apply listMin_nonneg
  intro d hd
  rcases List.mem_map.1 hd with ⟨p, hp, rfl⟩
  exact trimf_nonneg _ _ _ _ (hord p hp).1 (hord p hp).2

lemma aggregated_eq_ref (rules : List FRule) (inputs : List ℚ) (x : ℚ)
    (hok : ∀ r ∈ rules, r.ants ≠ [] ∧ (∀ p ∈ r.ants, MF.ordered p.2) ∧ MF.ordered r.cons) :
    aggregated rules inputs x = refAggregated rules inputs x := by
  unfold aggregated refAggregated
  rw [List.map_congr_left
    (fun r hr => by rw [firing_eq_refFiring inputs r (hok r hr).1 (hok r hr).2.1])]
  apply foldr_max_eq_listMax
  intro d hd
  rcases List.mem_map.1 hd with ⟨r, hr, rfl⟩
  exact le_min (refFiring_nonneg inputs r (hok r hr).2.1)
    (trimf_nonneg _ _ _ _ (hok r hr).2.2.1 (hok r hr).2.2.2)

lemma mamdani_eq_refCentroid (rules : List FRule) (inputs : List ℚ)
    (hok : ∀ r ∈ rules, r.ants ≠ [] ∧ (∀ p ∈ r.ants, MF.ordered p.2) ∧ MF.ordered r.cons)
    (hden : 0 < centroidDen rules inputs) :
    mamdani rules inputs = some (refCentroid rules inputs) := by
  have hagg : ∀ y, aggregated rules inputs y = refAggregated rules inputs y :=
    fun y => aggregated_eq_ref rules inputs y hok
  unfold mamdani
  rw [if_neg (ne_of_gt hden)]
  simp only [centroidNum, centroidDen, refCentroid, hagg]

lemma dehum_rules_ok : ∀ r ∈ dehum_rules,
    r.ants ≠ [] ∧ (∀ p ∈ r.ants, MF.ordered p.2) ∧ MF.ordered r.cons := by
  intro r hr
  simp only [dehum_rules, List.mem_cons, List.not_mem_nil, or_false] at hr
  rcases hr with rfl | rfl | rfl <;>
    norm_num [MF.ordered, List.forall_mem_cons, dehum_humidity_high, dehum_humidity_medium,
      dehum_humidity_low, dehum_high, dehum_low, dehum_off]

lemma vent_rules_ok : ∀ r ∈ vent_rules,
    r.ants ≠ [] ∧ (∀ p ∈ r.ants, MF.ordered p.2) ∧ MF.ordered r.cons := by
  intro r hr
  simp only [vent_rules, List.mem_cons, List.not_mem_nil, or_false] at hr
  rcases hr with rfl | rfl | rfl | rfl | rfl | rfl | rfl | rfl | rfl <;>
    norm_num [MF.ordered, List.forall_mem_cons, vent_humidity_high, vent_humidity_medium,
      vent_humidity_low, vent_moisture_high, vent_moisture_medium, vent_moisture_low,
      vent_high, vent_low, vent_off] <;> simp

lemma heat_rules_ok : ∀ r ∈ heat_rules,
    r.ants ≠ [] ∧ (∀ p ∈ r.ants, MF.ordered p.2) ∧ MF.ordered r.cons := by
  intro r hr
  simp only [heat_rules, List.mem_cons, List.not_mem_nil, or_false] at hr
  rcases hr with rfl | rfl | rfl <;>
    norm_num [MF.ordered, List.forall_mem_cons, heat_temperature_hot, heat_temperature_medium,
      heat_temperature_cold, heat_cool, heat_off, heat_on]

/-! ### Plant update branch lemmas -/

lemma update_temperature_pos_branch (t : ℕ) (tb mt : ℕ → ℚ)
    (act minL maxL decay af : ℚ) (hpos : 0 < act) :
    update_temperature t tb mt act minL maxL decay af
      = mt (t-1) + (maxL - mt (t-1)) * (act / 10) * af := by
  simp only [update_temperature]
  rw [if_pos (div_pos hpos (by norm_num))]

lemma update_temperature_neg_branch (t : ℕ) (tb mt : ℕ → ℚ)
    (act minL maxL decay af : ℚ) (hneg : act < 0) :
    update_temperature t tb mt act minL maxL decay af
      = mt (t-1) - (mt (t-1) - minL) * |act / 10| * af := by
  have h1 : act / 10 < 0 := div_neg_of_neg_of_pos hneg (by norm_num)
  simp only [update_temperature]
  rw [if_neg (not_lt.2 h1.le), if_pos h1]

lemma update_temperature_zero_branch (t : ℕ) (tb mt : ℕ → ℚ)
    (minL maxL decay af : ℚ) :
    update_temperature t tb mt 0 minL maxL decay af
      = if tb t < mt (t-1) then max (tb t) (mt (t-1) - decay)
        else min (tb t) (mt (t-1) + decay) := by
  simp only [update_temperature]
  norm_num

lemma update_humidity_pos_branch (t : ℕ) (hb mh : ℕ → ℚ)
    (d v minL decay af : ℚ) (hpos : 0 < d + v) :
    update_humidity t hb mh d v minL decay af
      = mh (t-1) - (mh (t-1) - minL) * ((d + v) / 10) * af := by
  simp only [update_humidity]
  rw [if_pos (div_pos hpos (by norm_num))]

lemma update_humidity_nonpos_branch (t : ℕ) (hb mh : ℕ → ℚ)
    (d v minL decay af : ℚ) (hnp : d + v ≤ 0) :
    update_humidity t hb mh d v minL decay af
      = mh (t-1) + (hb t - mh (t-1)) * decay := by
  have h1 : (d + v) / 10 ≤ (0:ℚ) / 10 := div_le_div_of_nonneg_right hnp (by norm_num)
  rw [zero_div] at h1
  simp only [update_humidity]
  rw [if_neg (not_lt.2 h1)]

lemma update_moisture_pos_branch (t : ℕ) (mb mm : ℕ → ℚ)
    (v minL decay af : ℚ) (hpos : 0 < v) :
    update_moisture t mb mm v minL decay af
      = mm (t-1) - (mm (t-1) - minL) * (v / 10) * af := by
  simp only [update_moisture]
  rw [if_pos (div_pos hpos (by norm_num))]

lemma update_moisture_nonpos_branch (t : ℕ) (mb mm : ℕ → ℚ)
    (v minL decay af : ℚ) (hnp : v ≤ 0) :
    update_moisture t mb mm v minL decay af
      = mm (t-1) + (mb t - mm (t-1)) * decay := by
  have h1 : v / 10 ≤ (0:ℚ) / 10 := div_le_div_of_nonneg_right hnp (by norm_num)
  rw [zero_div] at h1
  simp only [update_moisture]
  rw [if_neg (not_lt.2 h1)]

lemma clamp_step (b prev decay : ℚ) (hd : 0 ≤ decay) (r : ℚ)
    (hr : r = if b < prev then max b (prev - decay) else min b (prev + decay)) :
    |r - b| = max (|prev - b| - decay) 0
    ∧ (b ≤ prev → b ≤ r ∧ r ≤ prev) ∧ (prev ≤ b → prev ≤ r ∧ r ≤ b) := by
  subst hr
  rcases lt_trichotomy b prev with hlt | heq | hgt
  · rw [if_pos hlt]
    refine ⟨?_, fun hle => ⟨le_max_left _ _, max_le hlt.le (by linarith)⟩,
      fun hge => ⟨by linarith, by linarith⟩⟩
    rcases le_or_lt (prev - decay) b with hc | hc
    · rw [max_eq_left hc, sub_self, abs_zero,
        abs_of_pos (by linarith : (0:ℚ) < prev - b),
        max_eq_right (by linarith : prev - b - decay ≤ 0)]
    · rw [max_eq_right hc.le, abs_of_pos (by linarith : (0:ℚ) < prev - decay - b),
        abs_of_pos (by linarith : (0:ℚ) < prev - b),
        max_eq_left (by linarith : (0:ℚ) ≤ prev - b - decay)]
      ring
  · subst heq
    rw [if_neg (lt_irrefl b), min_eq_left (by linarith)]
    refine ⟨?_, fun _ => ⟨le_refl b, le_refl b⟩, fun _ => ⟨le_refl b, le_refl b⟩⟩
    rw [sub_self, abs_zero, max_eq_right (by linarith : (0:ℚ) - decay ≤ 0)]
  · rw [if_neg (not_lt.2 hgt.le)]
    refine ⟨?_, fun hle => ⟨by linarith, by linarith⟩,
      fun hge => ⟨le_min hgt.le (by linarith), min_le_left _ _⟩⟩
    rcases le_or_lt b (prev + decay) with hc | hc
    · rw [min_eq_left hc, sub_self, abs_zero,
        abs_of_neg (by linarith : prev - b < 0),
        max_eq_right (by linarith : -(prev - b) - decay ≤ 0)]
    · rw [min_eq_right hc.le, abs_of_neg (by linarith : prev + decay - b < 0),
        abs_of_neg (by linarith : prev - b < 0),
        max_eq_left (by linarith : (0:ℚ) ≤ -(prev - b) - decay)]
      ring

/-- C3: for every timestep `t > 0`, the temperature update with previous
heating action `act` follows the spec's law: positive intensity moves
toward `max_limit` by `(max_limit - prev) * intensity * action_factor`,
negative intensity moves toward `min_limit` by the mirrored term, and zero
intensity moves toward `base[t]` by exactly the fixed step `decay_rate`,
clamped so the result never overshoots past `base[t]` (the distance to
base shrinks by exactly `decay_rate` until it clamps to zero, and the
result stays between the previous value and the base). -/
theorem C3_temperature_update_law (t : ℕ) (tb mt : ℕ → ℚ)
    (act minL maxL decay af : ℚ) (ht : 0 < t) :
    (0 < act → update_temperature t tb mt act minL maxL decay af
        = mt (t-1) + (maxL - mt (t-1)) * (act / 10) * af)
    ∧ (act < 0 → update_temperature t tb mt act minL maxL decay af
        = mt (t-1) - (mt (t-1) - minL) * |act / 10| * af)
    ∧ (act = 0 → 0 ≤ decay →
        |update_temperature t tb mt act minL maxL decay af - tb t|
            = max (|mt (t-1) - tb t| - decay) 0
        ∧ (tb t ≤ mt (t-1) →
            tb t ≤ update_temperature t tb mt act minL maxL decay af
            ∧ update_temperature t tb mt act minL maxL decay af ≤ mt (t-1))
        ∧ (mt (t-1) ≤ tb t →
            mt (t-1) ≤ update_temperature t tb mt act minL maxL decay af
            ∧ update_temperature t tb mt act minL maxL decay af ≤ tb t)) := by
  refine ⟨fun hpos => update_temperature_pos_branch t tb mt act minL maxL decay af hpos,
    fun hneg => update_temperature_neg_branch t tb mt act minL maxL decay af hneg,
    fun h0 hdec => ?_⟩
  subst h0
  rw [update_temperature_zero_branch]
  exact clamp_step (tb t) (mt (t-1)) decay hdec _ rfl

theorem C3_witness :
    update_temperature 1 (fun _ => (10:ℚ)) (fun _ => (20:ℚ)) 5 0 25 (1/20) (1/20)
      = 20 + (25 - 20) * (5 / 10) * (1/20) :=
  (C3_temperature_update_law 1 (fun _ => (10:ℚ)) (fun _ => (20:ℚ)) 5 0 25 (1/20) (1/20)
    (by norm_num)).1 (by norm_num)

/-- C4: for every timestep `t > 0`, the humidity update with combined
intensity `(d + v)/10` subtracts `(prev - min_limit) * intensity *
action_factor` when the intensity is positive (pull toward `min_limit`,
with no max-limit branch), and otherwise adds `(base[t] - prev) *
decay_rate` (a fractional pull toward base, not a fixed step); the
moisture update obeys the identical law driven by the ventilation action
alone. -/
theorem C4_humidity_moisture_update_law (t : ℕ) (hb mh mb mm : ℕ → ℚ)
    (d v minL decay af : ℚ) (ht : 0 < t) :
    (0 < d + v → update_humidity t hb mh d v minL decay af
        = mh (t-1) - (mh (t-1) - minL) * ((d + v) / 10) * af)
    ∧ (d + v ≤ 0 → update_humidity t hb mh d v minL decay af
        = mh (t-1) + (hb t - mh (t-1)) * decay)
    ∧ (0 < v → update_moisture t mb mm v minL decay af
        = mm (t-1) - (mm (t-1) - minL) * (v / 10) * af)
    ∧ (v ≤ 0 → update_moisture t mb mm v minL decay af
        = mm (t-1) + (mb t - mm (t-1)) * decay) :=
  ⟨fun h => update_humidity_pos_branch t hb mh d v minL decay af h,
   fun h => update_humidity_nonpos_branch t hb mh d v minL decay af h,
   fun h => update_moisture_pos_branch t mb mm v minL decay af h,
   fun h => update_moisture_nonpos_branch t mb mm v minL decay af h⟩

theorem C4_witness :
    update_humidity 1 (fun _ => (70:ℚ)) (fun _ => (60:ℚ)) 2 3 0 (1/20) (3/100)
      = 60 - (60 - 0) * ((2 + 3) / 10) * (3/100) :=
  (C4_humidity_moisture_update_law 1 (fun _ => (70:ℚ)) (fun _ => (60:ℚ))
    (fun _ => (25:ℚ)) (fun _ => (30:ℚ)) 2 3 0 (1/20) (3/100) (by norm_num)).1 (by norm_num)

/-- C5 counterexample: the claim quantifies over every previous state
value, but with the configured limits (`max_limit = 25`) a previous
temperature of 30 above the limit is *decreased* by a positive heating
action: `update_temperature` yields 119/4 < 30. -/
theorem C5_counterexample :
    update_temperature 1 (fun _ => (15:ℚ)) (fun _ => (30:ℚ)) 10 5 25 (1/20) (1/20)
      < 30 := by
  rw [update_temperature_pos_branch 1 (fun _ => (15:ℚ)) (fun _ => (30:ℚ)) 10 5 25
    (1/20) (1/20) (by norm_num)]
  norm_num

/-- C5 (amended): provided the previous value has not already crossed the
acting limit (`prev ≤ max_limit` for heating, `min_limit ≤ prev` for
dehumidify/ventilate) and the action factor is nonnegative, a positive
heating intensity never decreases the temperature, and a positive
dehumidifier/ventilation intensity never increases the humidity or
moisture. -/
theorem C5_monotone_toward_acting_limit :
    (∀ (t : ℕ) (tb mt : ℕ → ℚ) (act minL maxL decay af : ℚ),
      mt (t-1) ≤ maxL → 0 ≤ af → 0 < act →
      mt (t-1) ≤ update_temperature t tb mt act minL maxL decay af)
    ∧ (∀ (t : ℕ) (hb mh : ℕ → ℚ) (d v minL decay af : ℚ),
      minL ≤ mh (t-1) → 0 ≤ af → 0 < d + v →
      update_humidity t hb mh d v minL decay af ≤ mh (t-1))
    ∧ (∀ (t : ℕ) (mb mm : ℕ → ℚ) (v minL decay af : ℚ),
      minL ≤ mm (t-1) → 0 ≤ af → 0 < v →
      update_moisture t mb mm v minL decay af ≤ mm (t-1)) := by
  refine ⟨fun t tb mt act minL maxL decay af h1 h2 h3 => ?_,
    fun t hb mh d v minL decay af h1 h2 h3 => ?_,
    fun t mb mm v minL decay af h1 h2 h3 => ?_⟩
  · rw [update_temperature_pos_branch t tb mt act minL maxL decay af h3]
    have : 0 ≤ (maxL - mt (t-1)) * (act / 10) * af :=
      mul_nonneg (mul_nonneg (by linarith) (div_pos h3 (by norm_num)).le) h2
    linarith
  · rw [update_humidity_pos_branch t hb mh d v minL decay af h3]
    have : 0 ≤ (mh (t-1) - minL) * ((d + v) / 10) * af :=
      mul_nonneg (mul_nonneg (by linarith) (div_pos h3 (by norm_num)).le) h2
    linarith
  · rw [update_moisture_pos_branch t mb mm v minL decay af h3]
    have : 0 ≤ (mm (t-1) - minL) * (v / 10) * af :=
      mul_nonneg (mul_nonneg (by linarith) (div_pos h3 (by norm_num)).le) h2
    linarith

theorem C5_witness :
    (20:ℚ) ≤ update_temperature 1 (fun _ => (15:ℚ)) (fun _ => (20:ℚ)) 10 5 25 (1/20) (1/20)
    ∧ update_humidity 1 (fun _ => (70:ℚ)) (fun _ => (60:ℚ)) 2 3 0 (1/20) (3/100) ≤ 60
    ∧ update_moisture 1 (fun _ => (25:ℚ)) (fun _ => (30:ℚ)) 4 0 (1/20) (1/20) ≤ 30 :=
  ⟨C5_monotone_toward_acting_limit.1 1 (fun _ => (15:ℚ)) (fun _ => (20:ℚ)) 10 5 25
      (1/20) (1/20) (by norm_num) (by norm_num) (by norm_num),
   C5_monotone_toward_acting_limit.2.1 1 (fun _ => (70:ℚ)) (fun _ => (60:ℚ)) 2 3 0
      (1/20) (3/100) (by norm_num) (by norm_num) (by norm_num),
   C5_monotone_toward_acting_limit.2.2 1 (fun _ => (25:ℚ)) (fun _ => (30:ℚ)) 4 0
      (1/20) (1/20) (by norm_num) (by norm_num) (by norm_num)⟩

/-- C8: the smoothed reading at `t` is the trailing moving average of the
noisy series over the window of the `min(t+1, 5)` most recent samples
ending at `t`: the sum of exactly that slice divided by the window size;
the window holds `t+1` samples for `t < 4` and exactly the last 5 samples
for `t ≥ 4`. -/
theorem C8_smoothing_window (t : ℕ) (data : List ℚ) (ht : t < data.length) :
    smooth_data t data 5
      = ((data.drop (t + 1 - min (t+1) 5)).take (min (t+1) 5)).sum
          / ((min (t+1) 5 : ℕ) : ℚ)
    ∧ (t < 4 → min (t+1) 5 = t + 1
        ∧ ((data.drop (t + 1 - min (t+1) 5)).take (min (t+1) 5)).length = t + 1)
    ∧ (4 ≤ t → min (t+1) 5 = 5
        ∧ ((data.drop (t + 1 - min (t+1) 5)).take (min (t+1) 5)).length = 5) := by
  have e1 : t + 1 - min (t+1) 5 = t + 1 - 5 := by omega
  refine ⟨?_, fun h4 => ⟨by omega, ?_⟩, fun h4 => ⟨by omega, ?_⟩⟩
  · rw [e1, show min (t+1) 5 = t + 1 - (t + 1 - 5) by omega]
    rfl
  · simp only [List.length_take, List.length_drop]
    omega
  · simp only [List.length_take, List.length_drop]
    omega

theorem C8_witness :
    smooth_data 6 [1, 2, 3, 4, 5, 6, 7, 8] 5
      = (([(1:ℚ), 2, 3, 4, 5, 6, 7, 8].drop (6 + 1 - min (6+1) 5)).take (min (6+1) 5)).sum
          / ((min (6+1) 5 : ℕ) : ℚ)
    ∧ min (6+1) 5 = 5 :=
  ⟨(C8_smoothing_window 6 [1, 2, 3, 4, 5, 6, 7, 8] (by norm_num)).1,
   ((C8_smoothing_window 6 [1, 2, 3, 4, 5, 6, 7, 8] (by norm_num)).2.2 (by norm_num)).1⟩

/-- C6: for a triangular membership function with ordered breakpoints
`a ≤ b ≤ c`, the degree lies in `[0,1]`, vanishes outside `[a,c]`,
vanishes at `a` unless `a = b`, peaks at 1 at `b`, vanishes at `c` unless
`b = c`, and is monotonically non-decreasing on `[a,b]` and non-increasing
on `[b,c]`; degenerate `a = b` or `b = c` are covered by these hypotheses
and the total function evaluates them as one-sided ramps with no division
error. -/
theorem C6_trimf_shape (a b c : ℚ) (hab : a ≤ b) (hbc : b ≤ c) :
    (∀ x, 0 ≤ trimf a b c x ∧ trimf a b c x ≤ 1)
    ∧ (∀ x, x < a ∨ c < x → trimf a b c x = 0)
    ∧ (a < b → trimf a b c a = 0)
    ∧ trimf a b c b = 1
    ∧ (b < c → trimf a b c c = 0)
    ∧ (∀ x y, a ≤ x → x ≤ y → y ≤ b → trimf a b c x ≤ trimf a b c y)
    ∧ (∀ x y, b ≤ x → x ≤ y → y ≤ c → trimf a b c y ≤ trimf a b c x) :=
  ⟨fun x => ⟨trimf_nonneg a b c x hab hbc, trimf_le_one a b c x hab hbc⟩,
   fun x hx => by unfold trimf; rw [if_pos hx],
   fun h => trimf_left_end a b c h,
   trimf_peak a b c hab hbc,
   fun h => trimf_right_end a b c hab h,
   fun x y hax hxy hyb => trimf_mono_up a b c x y hbc hax hxy hyb,
   fun x y hbx hxy hyc => trimf_mono_down a b c x y hab hbx hxy hyc⟩

theorem C6_witness :
    trimf 0 1 2 1 = 1 ∧ ((1:ℚ) < 2 → trimf 0 1 2 2 = 0) :=
  ⟨(C6_trimf_shape 0 1 2 (by norm_num) (by norm_num)).2.2.2.1,
   (C6_trimf_shape 0 1 2 (by norm_num) (by norm_num)).2.2.2.2.1⟩

/-- C10: `dehumidifier_controller` reads only `sensdata[1]` (humidity),
`heating_controller` only `sensdata[0]` (temperature), and
`ventilation_controller` only `sensdata[1]` and `sensdata[2]`: readings
that agree on those components produce identical outputs. -/
theorem C10_controller_input_projection (s s' : ℚ × ℚ × ℚ) :
    (s.2.1 = s'.2.1 → dehumidifier_controller s = dehumidifier_controller s')
    ∧ (s.1 = s'.1 → heating_controller s = heating_controller s')
    ∧ (s.2.1 = s'.2.1 → s.2.2 = s'.2.2 →
        ventilation_controller s = ventilation_controller s') :=
  ⟨fun h => by unfold dehumidifier_controller; rw [h],
   fun h => by unfold heating_controller; rw [h],
   fun h1 h2 => by unfold ventilation_controller; rw [h1, h2]⟩

theorem C10_witness :
    dehumidifier_controller (0, 50, 0) = dehumidifier_controller (30, 50, 100)
    ∧ heating_controller (15, 0, 0) = heating_controller (15, 100, 100)
    ∧ ventilation_controller (0, 50, 10) = ventilation_controller (30, 50, 10) :=
  ⟨(C10_controller_input_projection (0, 50, 0) (30, 50, 100)).1 rfl,
   (C10_controller_input_projection (15, 0, 0) (15, 100, 100)).2.1 rfl,
   (C10_controller_input_projection (0, 50, 10) (30, 50, 10)).2.2 rfl rfl⟩

/-- C1: for every reading inside the controllers' universes
(temperature in [0,30], humidity and moisture in [0,100]), each of the
three controllers evaluates to `some` of the reference Mamdani value:
minimum firing strengths, max-min aggregation over the discretized output
grid, and the centroid ratio. -/
theorem C1_controllers_match_reference_mamdani (sens : ℚ × ℚ × ℚ)
    (ht0 : 0 ≤ sens.1) (ht1 : sens.1 ≤ 30)
    (hh0 : 0 ≤ sens.2.1) (hh1 : sens.2.1 ≤ 100)
    (hm0 : 0 ≤ sens.2.2) (hm1 : sens.2.2 ≤ 100) :
    dehumidifier_controller sens = some (refCentroid dehum_rules [sens.2.1])
    ∧ ventilation_controller sens = some (refCentroid vent_rules [sens.2.1, sens.2.2])
    ∧ heating_controller sens = some (refCentroid heat_rules [sens.1]) :=
  ⟨mamdani_eq_refCentroid _ _ dehum_rules_ok (dehum_den_pos _ hh0 hh1),
   mamdani_eq_refCentroid _ _ vent_rules_ok (vent_den_pos _ _ hh0 hh1 hm0 hm1),
   mamdani_eq_refCentroid _ _ heat_rules_ok (heat_den_pos _ ht0 ht1)⟩

theorem C1_witness :
    dehumidifier_controller (15, 50, 10) = some (refCentroid dehum_rules [50])
    ∧ ventilation_controller (15, 50, 10) = some (refCentroid vent_rules [50, 10])
    ∧ heating_controller (15, 50, 10) = some (refCentroid heat_rules [15]) :=
  C1_controllers_match_reference_mamdani (15, 50, 10) (by norm_num) (by norm_num)
    (by norm_num) (by norm_num) (by norm_num) (by norm_num)

/-- Out-of-universe humidity 200: every rule's firing strength is zero at
every grid point, so the centroid denominator vanishes. -/
lemma dehum_den_zero_200 : centroidDen dehum_rules [(200:ℚ)] = 0 := by
  norm_num [centroidDen, aggregated, firing, antecedentDegrees, dehum_rules, MF.degree,
    trimf, outGrid, List.range_succ, dehum_humidity_low, dehum_humidity_medium,
    dehum_humidity_high, dehum_off, dehum_low, dehum_high]

/-- Out-of-universe humidity 300: zero centroid denominator. -/
lemma dehum_den_zero_300 : centroidDen dehum_rules [(300:ℚ)] = 0 := by
  norm_num [centroidDen, aggregated, firing, antecedentDegrees, dehum_rules, MF.degree,
    trimf, outGrid, List.range_succ, dehum_humidity_low, dehum_humidity_medium,
    dehum_humidity_high, dehum_off, dehum_low, dehum_high]

/-- A parameter set whose base humidity (300) is outside the humidity
universe, so the very first smoothed reading reaches no consensus. -/
def C2p0 : SimParams :=
  ⟨fun _ => 15, fun _ => 300, fun _ => 10, fun _ => 0, fun _ => 0, fun _ => 0⟩

lemma C2_sens_eq :
    stepSens C2p0 0 (stepState C2p0 0 (initState C2p0)) = (15, 300, 10) := by
  norm_num [stepSens, stepState, initState, noisySeries, seriesAt, smooth_data, C2p0,
    List.range_succ]

lemma C2_record_none : recordActions (15, 300, 10) = none := by
  have hdehum : dehumidifier_controller (15, 300, 10) = none := by
    unfold dehumidifier_controller mamdani
    rw [if_pos dehum_den_zero_300]
  unfold recordActions
  rw [hdehum]

/-- C2 (amended): when no rule fires above zero at any grid point (the
centroid denominator is zero), the controller evaluation yields the
explicit, recoverable no-consensus outcome `none` rather than silently
producing zero — but the driver of Main.py does not map it to a fallback
action: the action-recording step produces no action value and the run
step fails. -/
theorem C2_no_consensus_explicit_but_no_fallback :
    (∀ (rules : List FRule) (inputs : List ℚ),
      centroidDen rules inputs = 0 → mamdani rules inputs = none)
    ∧ (∀ (p : SimParams) (t : ℕ) (s : SimState),
      recordActions (stepSens p t (stepState p t s)) = none → runStep p t s = none) := by
  constructor
  · intro rules inputs h
    unfold mamdani
    rw [if_pos h]
  · intro p t s h
    unfold runStep
    rw [h]
    rfl

/-- C2 counterexample: at the concrete reading (20, 200, 10) no
dehumidifier rule fires (humidity 200 is outside every membership
support), and the driver produces *no* action at all — neither the
previous action nor a clamped 0: the action-recording step and the whole
first run step yield `none`. -/
theorem C2_counterexample :
    dehumidifier_controller (20, 200, 10) = none
    ∧ recordActions (20, 200, 10) = none
    ∧ run C2p0 0 = none := by
  have hdehum : dehumidifier_controller (20, 200, 10) = none := by
    unfold dehumidifier_controller mamdani
    rw [if_pos dehum_den_zero_200]
  refine ⟨hdehum, ?_, ?_⟩
  · unfold recordActions
    rw [hdehum]
  · show runStep C2p0 0 (initState C2p0) = none
    unfold runStep
    rw [C2_sens_eq, C2_record_none]
    rfl

theorem C2_witness :
    mamdani dehum_rules [(200:ℚ)] = none
    ∧ runStep C2p0 0 (initState C2p0) = none :=
  ⟨C2_no_consensus_explicit_but_no_fallback.1 dehum_rules [(200:ℚ)] dehum_den_zero_200,
   C2_no_consensus_explicit_but_no_fallback.2 C2p0 0 (initState C2p0)
     (by rw [C2_sens_eq, C2_record_none])⟩

/-- C9: on a run whose updated temperature never enters the comfort band
[18, 22] (here the constant series 15), the selection
`time[(updated <= 22) & (updated >= 18)]` is empty, so the source's
`rise_temperature[0]` (Main.py line 142, and the stability computation at
line 137) has no value: index 0 of an empty selection. -/
theorem C9_rise_time_empty_crash :
    rise_temperature [0, 2, 4] [15, 15, 15] = []
    ∧ (rise_temperature [0, 2, 4] [15, 15, 15]).head? = none := by
  constructor <;>
    norm_num [rise_temperature, rise_band, List.zip, List.zipWith, List.filter]

/-! ### Driver invariants and the one-step-lag theorem -/

lemma seriesAt_head (l : List ℚ) (n : ℕ) (hl : l.length = n + 1) :
    seriesAt l n = l.headD 0 := by
  cases l with
  | nil => simp at hl
  | cons a l' =>
    have hn : n = l'.length := by
      simp only [List.length_cons] at hl
      omega
    subst hn
    show (a :: l').reverse.getD l'.length 0 = a
    rw [List.reverse_cons, List.getD_append_right _ _ _ _ (by simp)]
    simp

lemma run_lengths (p : SimParams) : ∀ t s, run p t = some s →
    s.tempUpd.length = t + 1 ∧ s.humUpd.length = t + 1 ∧ s.moistUpd.length = t + 1
    ∧ s.dehumAct.length = t + 1 ∧ s.ventAct.length = t + 1 ∧ s.heatAct.length = t + 1 := by
  intro t
  induction t with
  | zero =>
    intro s hs
    have hs' : (recordActions (stepSens p 0 (stepState p 0 (initState p)))).map
        (pushActs (stepState p 0 (initState p))) = some s := hs
    rcases Option.map_eq_some'.1 hs' with ⟨a, _, rfl⟩
    simp [pushActs, stepState, initState]
  | succ t ih =>
    intro s hs
    have hs' : (run p t).bind (runStep p (t + 1)) = some s := hs
    rcases Option.bind_eq_some.1 hs' with ⟨sp, hrun, hstep⟩
    have hstep' : (recordActions (stepSens p (t+1) (stepState p (t+1) sp))).map
        (pushActs (stepState p (t+1) sp)) = some s := hstep
    rcases Option.map_eq_some'.1 hstep' with ⟨a, _, rfl⟩
    have hl := ih sp hrun
    rw [show stepState p (t+1) sp = plantStep p (t+1) sp from if_pos (Nat.succ_pos t)]
    simp [pushActs, plantStep, hl.1, hl.2.1, hl.2.2.1, hl.2.2.2.1, hl.2.2.2.2.1,
      hl.2.2.2.2.2]

lemma run_zero_ne_none (p : SimParams) : ∀ t, run p t ≠ none → run p 0 ≠ none := by
  intro t
  induction t with
  | zero => exact id
  | succ t ih =>
    intro h
    have ht : run p t ≠ none := by
      intro hz
      apply h
      show (run p t).bind (runStep p (t + 1)) = none
      rw [hz]
      rfl
    exact ih ht

lemma run_zero_heads (p : SimParams) (s0 : SimState) (h : run p 0 = some s0) :
    s0.tempUpd.headD 0 = p.tempBase 0 ∧ s0.humUpd.headD 0 = p.humBase 0
    ∧ s0.moistUpd.headD 0 = p.moistBase 0 := by
  have h' : (recordActions (stepSens p 0 (stepState p 0 (initState p)))).map
      (pushActs (stepState p 0 (initState p))) = some s0 := h
  rcases Option.map_eq_some'.1 h' with ⟨a, _, rfl⟩
  simp [pushActs, stepState, initState]

lemma update_temperature_as_law (t : ℕ) (tb mt : ℕ → ℚ) (act : ℚ) :
    update_temperature t tb mt act temperature_min_limit temperature_max_limit
      temperature_decay_rate temperature_action_factor
      = tempLaw (mt (t - 1)) (tb t) act := rfl

lemma update_humidity_as_law (t : ℕ) (hb mh : ℕ → ℚ) (d v : ℚ) :
    update_humidity t hb mh d v humidity_min_limit humidity_decay_rate
      humidity_action_factor
      = humLaw (mh (t - 1)) (hb t) d v := rfl

lemma update_moisture_as_law (t : ℕ) (mb mm : ℕ → ℚ) (v : ℚ) :
    update_moisture t mb mm v moisture_min_limit moisture_decay_rate
      moisture_action_factor
      = moistLaw (mm (t - 1)) (mb t) v := rfl

/-- C7: each plant series starts at its base value (`updated[0] = base[0]`),
and for every `t > 0` reached by the run, `updated[t]` is determined by
exactly the previous updated value, the base value at `t`, and the
actuator action(s) recorded at `t-1` — the laws `tempLaw`, `humLaw`,
`moistLaw` take only those arguments, so no value at `t` depends on
actions recorded at `t` or later. -/
theorem C7_one_step_lag (p : SimParams) (t : ℕ) (ht : 0 < t) (hne : run p t ≠ none) :
    (tempAt (run p 0) = p.tempBase 0 ∧ humAt (run p 0) = p.humBase 0
      ∧ moistAt (run p 0) = p.moistBase 0)
    ∧ tempAt (run p t)
        = tempLaw (tempAt (run p (t-1))) (p.tempBase t) (heatActAt (run p (t-1)))
    ∧ humAt (run p t)
        = humLaw (humAt (run p (t-1))) (p.humBase t) (dehumActAt (run p (t-1)))
            (ventActAt (run p (t-1)))
    ∧ moistAt (run p t)
        = moistLaw (moistAt (run p (t-1))) (p.moistBase t) (ventActAt (run p (t-1))) := by
  rcases Nat.exists_eq_succ_of_ne_zero (Nat.pos_iff_ne_zero.1 ht) with ⟨u, rfl⟩
  rcases Option.ne_none_iff_exists'.1 hne with ⟨s, hs⟩
  have hs' : (run p u).bind (runStep p (u + 1)) = some s := hs
  rcases Option.bind_eq_some.1 hs' with ⟨sp, hrun, hstep⟩
  have hstep' : (recordActions (stepSens p (u+1) (stepState p (u+1) sp))).map
      (pushActs (stepState p (u+1) sp)) = some s := hstep
  rcases Option.map_eq_some'.1 hstep' with ⟨a, _, rfl⟩
  have hlen := run_lengths p u sp hrun
  have hss : stepState p (u+1) sp = plantStep p (u+1) sp := if_pos (Nat.succ_pos u)
  constructor
  · rcases Option.ne_none_iff_exists'.1 (run_zero_ne_none p (u+1) hne) with ⟨s0, hs0⟩
    have h0 := run_zero_heads p s0 hs0
    rw [hs0]
    exact h0
  · rw [hs]
    simp only [Nat.succ_sub_one]
    rw [hrun, hss]
    refine ⟨?_, ?_, ?_⟩
    · show update_temperature (u+1) p.tempBase (seriesAt sp.tempUpd) (sp.heatAct.headD 0)
          temperature_min_limit temperature_max_limit temperature_decay_rate
          temperature_action_factor
        = tempLaw (sp.tempUpd.headD 0) (p.tempBase (u+1)) (sp.heatAct.headD 0)
      rw [update_temperature_as_law]
      simp only [Nat.add_sub_cancel]
      rw [seriesAt_head sp.tempUpd u hlen.1]
    · show update_humidity (u+1) p.humBase (seriesAt sp.humUpd) (sp.dehumAct.headD 0)
          (sp.ventAct.headD 0) humidity_min_limit humidity_decay_rate
          humidity_action_factor
        = humLaw (sp.humUpd.headD 0) (p.humBase (u+1)) (sp.dehumAct.headD 0)
            (sp.ventAct.headD 0)
      rw [update_humidity_as_law]
      simp only [Nat.add_sub_cancel]
      rw [seriesAt_head sp.humUpd u hlen.2.1]
    · show update_moisture (u+1) p.moistBase (seriesAt sp.moistUpd) (sp.ventAct.headD 0)
          moisture_min_limit moisture_decay_rate moisture_action_factor
        = moistLaw (sp.moistUpd.headD 0) (p.moistBase (u+1)) (sp.ventAct.headD 0)
      rw [update_moisture_as_law]
      simp only [Nat.add_sub_cancel]
      rw [seriesAt_head sp.moistUpd u hlen.2.2.1]

lemma recordActions_some (s : ℚ × ℚ × ℚ) (ht0 : 0 ≤ s.1) (ht1 : s.1 ≤ 30)
    (hh0 : 0 ≤ s.2.1) (hh1 : s.2.1 ≤ 100) (hm0 : 0 ≤ s.2.2) (hm1 : s.2.2 ≤ 100) :
    ∃ a, recordActions s = some a := by
  have hd : dehumidifier_controller s
      = some (centroidNum dehum_rules [s.2.1] / centroidDen dehum_rules [s.2.1]) := by
    unfold dehumidifier_controller mamdani
    rw [if_neg (ne_of_gt (dehum_den_pos _ hh0 hh1))]
  have hv : ventilation_controller s
      = some (centroidNum vent_rules [s.2.1, s.2.2] / centroidDen vent_rules [s.2.1, s.2.2]) := by
    unfold ventilation_controller mamdani
    rw [if_neg (ne_of_gt (vent_den_pos _ _ hh0 hh1 hm0 hm1))]
  have hw : heating_controller s
      = some (centroidNum heat_rules [s.1] / centroidDen heat_rules [s.1]) := by
    unfold heating_controller mamdani
    rw [if_neg (ne_of_gt (heat_den_pos _ ht0 ht1))]
  refine ⟨(centroidNum dehum_rules [s.2.1] / centroidDen dehum_rules [s.2.1],
    centroidNum vent_rules [s.2.1, s.2.2] / centroidDen vent_rules [s.2.1, s.2.2],
    centroidNum heat_rules [s.1] / centroidDen heat_rules [s.1]), ?_⟩
  unfold recordActions
  rw [hd, hv, hw]

/-- Constant in-universe base signals with zero noise, for exercising the
driver loop on a concrete run. -/
def C7p0 : SimParams :=
  ⟨fun _ => 15, fun _ => 50, fun _ => 10, fun _ => 0, fun _ => 0, fun _ => 0⟩

/-- The driver state after timestep 0 of the `C7p0` run. -/
def C7s0 : SimState := ⟨[15], [50], [10], [3/2], [-605/116], [75/13]⟩

lemma C7_sens0 : stepSens C7p0 0 (stepState C7p0 0 (initState C7p0)) = (15, 50, 10) := by
  norm_num [stepSens, stepState, initState, noisySeries, seriesAt, smooth_data, C7p0,
    List.range_succ]

lemma C7_dehum0 : dehumidifier_controller (15, 50, 10) = some (3/2) := by
  norm_num [dehumidifier_controller, mamdani, centroidNum, centroidDen, aggregated,
    firing, antecedentDegrees, dehum_rules, MF.degree, trimf, outGrid, List.range_succ,
    dehum_humidity_low, dehum_humidity_medium, dehum_humidity_high, dehum_off,
    dehum_low, dehum_high]

set_option maxHeartbeats 2000000 in
lemma C7_vent0 : ventilation_controller (15, 50, 10) = some (-605/116) := by
  norm_num [ventilation_controller, mamdani, centroidNum, centroidDen, aggregated,
    firing, antecedentDegrees, vent_rules, MF.degree, trimf, outGrid, List.range_succ,
    vent_humidity_low, vent_humidity_medium, vent_humidity_high, vent_moisture_low,
    vent_moisture_medium, vent_moisture_high, vent_off, vent_low, vent_high]

lemma C7_heat0 : heating_controller (15, 50, 10) = some (75/13) := by
  norm_num [heating_controller, mamdani, centroidNum, centroidDen, aggregated,
    firing, antecedentDegrees, heat_rules, MF.degree, trimf, outGrid, List.range_succ,
    heat_temperature_cold, heat_temperature_medium, heat_temperature_hot, heat_cool,
    heat_off, heat_on]

lemma C7_rec0 : recordActions (15, 50, 10) = some (3/2, -605/116, 75/13) := by
  unfold recordActions
  rw [C7_dehum0, C7_vent0, C7_heat0]

lemma C7_run0 : run C7p0 0 = some C7s0 := by
  show (recordActions (stepSens C7p0 0 (stepState C7p0 0 (initState C7p0)))).map
      (pushActs (stepState C7p0 0 (initState C7p0))) = some C7s0
  rw [C7_sens0, C7_rec0]
  rfl

lemma C7_sens1 : stepSens C7p0 1 (stepState C7p0 1 C7s0) = (1575/104, 50, 10) := by
  norm_num [stepSens, stepState, plantStep, update_temperature, update_humidity,
    update_moisture, noisySeries, seriesAt, smooth_data, C7p0, C7s0, List.range_succ,
    temperature_min_limit, temperature_max_limit, temperature_decay_rate,
    temperature_action_factor, humidity_min_limit, humidity_decay_rate,
    humidity_action_factor, moisture_min_limit, moisture_decay_rate,
    moisture_action_factor]

lemma C7_run1_ne_none : run C7p0 1 ≠ none := by
  show (run C7p0 0).bind (runStep C7p0 1) ≠ none
  rw [C7_run0]
  show runStep C7p0 1 C7s0 ≠ none
  obtain ⟨a, ha⟩ := recordActions_some (stepSens C7p0 1 (stepState C7p0 1 C7s0))
    (by rw [C7_sens1]; norm_num) (by rw [C7_sens1]; norm_num)
    (by rw [C7_sens1]; norm_num) (by rw [C7_sens1]; norm_num)
    (by rw [C7_sens1]; norm_num) (by rw [C7_sens1]; norm_num)
  unfold runStep
  rw [ha, Option.map_some']
  exact Option.some_ne_none _

theorem C7_witness :
    (0 < 1 ∧ run C7p0 1 ≠ none)
    ∧ tempAt (run C7p0 0) = C7p0.tempBase 0
    ∧ tempAt (run C7p0 1)
        = tempLaw (tempAt (run C7p0 0)) (C7p0.tempBase 1) (heatActAt (run C7p0 0)) :=
  ⟨⟨Nat.one_pos, C7_run1_ne_none⟩,
   (C7_one_step_lag C7p0 1 Nat.one_pos C7_run1_ne_none).1.1,
   (C7_one_step_lag C7p0 1 Nat.one_pos C7_run1_ne_none).2.1⟩
